import Mathlib

/-!
Shallow embedding of the MERN social-feed backend's core routes
(`src/routes/api/auth.js` and `src/routes/api/posts.js`).

The document store is modelled as a list of posts plus a well-formedness
predicate on ids (`Store.validId`): `findById` on an id failing that
predicate corresponds to Mongoose throwing an `ObjectId` cast error,
`findById` on a well-formed id absent from the store returns `null`
(here `LookupResult.absent`).  Handlers are pure functions returning the
response (`Except ApiError _`) together with the post-request store.
JavaScript's `Array.prototype.indexOf` / `splice(i, 1)` pair is embedded
by `jsIndexOf` / `spliceRemoveOne`, including the `-1` convention.
-/

namespace Mern

inductive ApiError
  | invalidInput
  | invalidCredential
  | unauthenticated
  | forbidden
  | notFound
  | duplicateAction
  | invalidState
  | storeUnavailable
  deriving DecidableEq, Repr

structure Like where
  user : String
  deriving DecidableEq, Repr

structure Comment where
  id : String
  user : String
  text : String
  name : String
  avatar : String
  deriving DecidableEq, Repr

structure Post where
  id : String
  user : String
  text : String
  name : String
  avatar : String
  likes : List Like
  comments : List Comment
  deriving DecidableEq, Repr

structure User where
  id : String
  name : String
  avatar : String
  deriving DecidableEq, Repr

structure Store where
  validId : String → Bool
  posts : List Post

inductive LookupResult
  | found (p : Post)
  | absent
  | castError
  deriving DecidableEq, Repr

/-- `Post.findById(pid)`: throws a cast error on a malformed id, returns
`null` (`absent`) when no document has the id, else the first document
with that id. -/
def findById (s : Store) (pid : String) : LookupResult :=
  if s.validId pid then
    match s.posts.find? (fun q => q.id == pid) with
    | some p => .found p
    | none => .absent
  else .castError

/-- `post.save()`: writes the (mutated) document back into the store. -/
def savePost (s : Store) (p : Post) : Store :=
  { s with posts := s.posts.map (fun q => if q.id == p.id then p else q) }

/-- `post.remove()`: deletes the document from the store. -/
def removePost (s : Store) (p : Post) : Store :=
  { s with posts := s.posts.eraseP (fun q => q.id == p.id) }

/-- JavaScript `array.indexOf(x)`: index of the first occurrence, `-1` if
absent. -/
def jsIndexOf (l : List String) (x : String) : Int :=
  match l.findIdx? (fun y => y == x) with
  | some i => (i : Int)
  | none => -1

/-- JavaScript `array.splice(i, 1)` (the removal effect): a negative `i`
counts from the end (clamped at `0`); an in-range `i` removes the element
at `i`; an out-of-range `i` removes nothing. -/
def spliceRemoveOne {α : Type} (l : List α) (i : Int) : List α :=
  if i < 0 then l.eraseIdx ((max 0 ((l.length : Int) + i)).toNat)
  else l.eraseIdx i.toNat

/-- `GET api/posts/:post_id` (`src/routes/api/posts.js:62-76`): 404 when
the post is `null` and also when `findById` raises an `ObjectId` cast
error (`err.kind === 'ObjectId'` branch of the catch). -/
def getById (s : Store) (pid : String) : Except ApiError Post :=
  match findById s pid with
  | .found p => .ok p
  | .absent => .error .notFound
  | .castError => .error .notFound

/-- `DELETE api/posts/:post_id` (`src/routes/api/posts.js:82-104`): 404 on
a missing post or a cast error, 401 (`Forbidden` in the spec's taxonomy)
when the caller is not the post's author, else removes the post. -/
def deleteById (s : Store) (pid uid : String) :
    Except ApiError String × Store :=
  match findById s pid with
  | .found p =>
    if p.user ≠ uid then (.error .forbidden, s)
    else (.ok "Post removed.", removePost s p)
  | .absent => (.error .notFound, s)
  | .castError => (.error .notFound, s)

/-- `PUT api/posts/like/:post_id` (`src/routes/api/posts.js:110-130`).
There is no `null` check: on an absent post the handler dereferences
`null.likes`, and the resulting `TypeError` — like a cast error — lands in
the generic catch, a 500 (`storeUnavailable`). -/
def like (s : Store) (pid uid : String) :
    Except ApiError (List Like) × Store :=
  match findById s pid with
  | .found p =>
    if 0 < (p.likes.filter (fun l => l.user == uid)).length then
      (.error .duplicateAction, s)
    else
      let updated : Post := { p with likes := { user := uid } :: p.likes }
      (.ok updated.likes, savePost s updated)
  | .absent => (.error .storeUnavailable, s)
  | .castError => (.error .storeUnavailable, s)

/-- `PUT api/posts/unlike/:post_id` (`src/routes/api/posts.js:136-161`).
Same catch behaviour as `like`; the removal index is
`likes.map(toString).indexOf(req.user.id)` followed by `splice(i, 1)`. -/
def unlike (s : Store) (pid uid : String) :
    Except ApiError (List Like) × Store :=
  match findById s pid with
  | .found p =>
    if (p.likes.filter (fun l => l.user == uid)).length = 0 then
      (.error .invalidState, s)
    else
      let removeIndex := jsIndexOf (p.likes.map (fun l => l.user)) uid
      let updated : Post := { p with likes := spliceRemoveOne p.likes removeIndex }
      (.ok updated.likes, savePost s updated)
  | .absent => (.error .storeUnavailable, s)
  | .castError => (.error .storeUnavailable, s)

/-- `PUT api/posts/comment/:post_id` (`src/routes/api/posts.js:167-197`):
empty text is rejected by the validator (400); an absent or malformed
post id makes `post.comments.unshift` throw into the generic catch
(500).  `freshId` stands for the id Mongoose assigns the subdocument. -/
def addComment (s : Store) (pid : String) (u : User) (text : String)
    (freshId : String) : Except ApiError Post × Store :=
  if text = "" then (.error .invalidInput, s)
  else
    match findById s pid with
    | .found p =>
      let newComment : Comment :=
        { id := freshId, user := u.id, text := text,
          name := u.name, avatar := u.avatar }
      let updated : Post := { p with comments := newComment :: p.comments }
      (.ok updated, savePost s updated)
    | .absent => (.error .storeUnavailable, s)
    | .castError => (.error .storeUnavailable, s)

/-- `DELETE api/posts/comment/:post_id/:comment_id`
(`src/routes/api/posts.js:203-235`): 404 when no comment has the target
id; 401 (`Forbidden`) when the caller is not the *comment's* author
(`comment.user.toString() !== req.user.id`); then the removal index is
`comments.map(c => c.user.toString()).indexOf(req.user.id)` — keyed on
the caller's id, not on `comment_id` — and `splice(i, 1)` is applied. -/
def removeComment (s : Store) (pid cid uid : String) :
    Except ApiError (List Comment) × Store :=
  match findById s pid with
  | .found p =>
    match p.comments.find? (fun c => c.id == cid) with
    | none => (.error .notFound, s)
    | some comment =>
      if comment.user ≠ uid then (.error .forbidden, s)
      else
        let removeIndex := jsIndexOf (p.comments.map (fun c => c.user)) uid
        let updated : Post :=
          { p with comments := spliceRemoveOne p.comments removeIndex }
        (.ok updated.comments, savePost s updated)
  | .absent => (.error .storeUnavailable, s)
  | .castError => (.error .storeUnavailable, s)

structure AuthUser where
  id : String
  email : String
  password : String
  deriving DecidableEq, Repr

/-- The observable outputs of the login handler, in order: each response
it sends (or attempts to send) on one request. -/
inductive AuthResponse
  | invalidCredential
  | token (userId : String)
  deriving DecidableEq, Repr

/-- `POST api/auth` (`src/routes/api/auth.js:28-75`), after the input
validators.  `verify` abstracts `bcrypt.compare(password, user.password)`.
Note the source: the `!user` branch `return`s, but the `!isMatch` branch
sends the 400 *without* `return`, so control falls through to
`jwt.sign`, which issues a token and attempts to send it as well. -/
def login (verify : String → String → Bool) (users : List AuthUser)
    (email password : String) : List AuthResponse :=
  match users.find? (fun u => u.email == email) with
  | none => [.invalidCredential]
  | some user =>
    (if verify password user.password then [] else [.invalidCredential])
      ++ [.token user.id]

/-- Engagement operations of claim C8's reachability statement. -/
inductive EngagementOp
  | like (pid uid : String)
  | unlike (pid uid : String)
  deriving DecidableEq, Repr

def applyOp (s : Store) : EngagementOp → Store
  | .like pid uid => (Mern.like s pid uid).snd
  | .unlike pid uid => (Mern.unlike s pid uid).snd

def runOps (s : Store) : List EngagementOp → Store
  | [] => s
  | op :: rest => runOps (applyOp s op) rest

/-- Each user likes a given post at most once. -/
def likesUnique (p : Post) : Prop :=
  (p.likes.map (fun l => l.user)).Nodup

instance (p : Post) : Decidable (likesUnique p) := by
  unfold likesUnique; infer_instance

/-- Specification-level description of what the comment-removal splice
does on the success path: drop the first comment authored by `uid`. -/
def removeFirstByUser (cs : List Comment) (uid : String) : List Comment :=
  match cs with
  | [] => []
  | c :: rest => if c.user = uid then rest else c :: removeFirstByUser rest uid

/-! Concrete fixtures used to evaluate the handlers on closed inputs. -/

/-- A concrete stand-in for the opaque `bcrypt.compare` capability,
used only to run `login` on closed inputs. -/
def eqVerify (plain stored : String) : Bool := plain == stored

def commentC2 : Comment :=
  { id := "c1", user := "u2", text := "hi", name := "U Two", avatar := "a2" }

/-- A post authored by `"u1"` carrying one comment written by `"u2"`. -/
def postC2 : Post :=
  { id := "p1", user := "u1", text := "hello", name := "U One", avatar := "a1",
    likes := [], comments := [commentC2] }

def storeC2 : Store := { validId := fun _ => true, posts := [postC2] }

/-- A store with no posts at all; every id is well formed. -/
def storeC3 : Store := { validId := fun _ => true, posts := [] }

def commentC4a : Comment :=
  { id := "c1", user := "u1", text := "first", name := "U One", avatar := "a1" }

def commentC4b : Comment :=
  { id := "c2", user := "u1", text := "second", name := "U One", avatar := "a1" }

/-- A post authored by `"ua"` carrying two comments both written by
`"u1"`, the target of the comment-removal run. -/
def postC4 : Post :=
  { id := "p1", user := "ua", text := "hello", name := "U A", avatar := "aa",
    likes := [], comments := [commentC4a, commentC4b] }

def storeC4 : Store := { validId := fun _ => true, posts := [postC4] }

/-- A post authored by `"u1"` already liked by `"u2"`. -/
def postC5 : Post :=
  { id := "p1", user := "u1", text := "hello", name := "U One", avatar := "a1",
    likes := [{ user := "u2" }], comments := [] }

def storeC5 : Store := { validId := fun _ => true, posts := [postC5] }

def opsC8 : List EngagementOp := [.like "p1" "u3", .unlike "p1" "u2"]

/-- The post of `storeC5` after `opsC8` has run. -/
def postC8final : Post :=
  { id := "p1", user := "u1", text := "hello", name := "U One", avatar := "a1",
    likes := [{ user := "u3" }], comments := [] }

/-- A store that treats only `"good"` as a well-formed id and holds no
posts, so `"bad"` raises a cast error while `"good"` is merely absent. -/
def storeC9 : Store := { validId := fun i => i == "good", posts := [] }

def userC10 : User := { id := "u9", name := "U Nine", avatar := "a9" }

/-! Basic laws of the store embedding. -/

theorem findById_found_iff {s : Store} {pid : String} {p : Post} :
    findById s pid = .found p ↔
      s.validId pid = true ∧ s.posts.find? (fun q => q.id == pid) = some p := by
  unfold findById
  cases hv : s.validId pid <;>
    cases hfind : s.posts.find? (fun q => q.id == pid) <;>
      simp [hv, hfind]

theorem findById_absent_iff {s : Store} {pid : String} :
    findById s pid = .absent ↔
      s.validId pid = true ∧ s.posts.find? (fun q => q.id == pid) = none := by
  unfold findById
  cases hv : s.validId pid <;>
    cases hfind : s.posts.find? (fun q => q.id == pid) <;>
      simp [hv, hfind]

theorem findById_castError {s : Store} {pid : String}
    (hv : s.validId pid = false) : findById s pid = .castError := by
  unfold findById
  simp [hv]

theorem findById_found_id {s : Store} {pid : String} {p : Post}
    (h : findById s pid = .found p) : p.id = pid := by
  have hp := List.find?_some (findById_found_iff.mp h).2
  simpa using hp

theorem findById_found_mem {s : Store} {pid : String} {p : Post}
    (h : findById s pid = .found p) : p ∈ s.posts :=
  List.mem_of_find?_eq_some (findById_found_iff.mp h).2

theorem find?_map_update {l : List Post} {pid : String} {p p2 : Post}
    (hf : l.find? (fun q => q.id == pid) = some p) (hid : p2.id = pid) :
    (l.map (fun q => if q.id == p2.id then p2 else q)).find?
      (fun q => q.id == pid) = some p2 := by
  induction l with
  | nil => simp at hf
  | cons a l ih =>
    by_cases ha : a.id = pid
    · have h1 : (a.id == p2.id) = true := by simp [ha, hid]
      rw [List.map_cons, show (if a.id == p2.id then p2 else a) = p2 from by simp [h1]]
      exact List.find?_cons_of_pos _ (by simp [hid])
    · have h2 : (a.id == p2.id) = false := by rw [hid]; simp [ha]
      rw [List.find?_cons_of_neg _ (by simp [ha])] at hf
      rw [List.map_cons, show (if a.id == p2.id then p2 else a) = a from by simp [h2]]
      rw [List.find?_cons_of_neg _ (by simp [ha])]
      exact ih hf

/-- Saving a mutated copy of the post found under `pid` makes that copy
what `findById` returns afterwards. -/
theorem findById_savePost {s : Store} {pid : String} {p p2 : Post}
    (h : findById s pid = .found p) (hid : p2.id = pid) :
    findById (savePost s p2) pid = .found p2 := by
  obtain ⟨hv, hf⟩ := findById_found_iff.mp h
  exact findById_found_iff.mpr ⟨hv, find?_map_update hf hid⟩

theorem find?_eraseP_none {l : List Post} {pid : String} {p : Post}
    (hf : l.find? (fun q => q.id == pid) = some p)
    (hnd : (l.map (fun q => q.id)).Nodup) :
    (l.eraseP (fun q => q.id == pid)).find? (fun q => q.id == pid) = none := by
  induction l with
  | nil => simp at hf
  | cons a l ih =>
    simp only [List.map_cons, List.nodup_cons] at hnd
    by_cases ha : a.id = pid
    · have h1 : (a.id == pid) = true := by simp [ha]
      rw [List.eraseP_cons, h1, cond_true, List.find?_eq_none]
      intro x hx
      simp only [beq_iff_eq]
      intro hxid
      exact hnd.1 (by rw [ha, ← hxid]; exact List.mem_map_of_mem _ hx)
    · have h1 : (a.id == pid) = false := by simp [ha]
      simp only [List.find?_cons, h1] at hf
      rw [List.eraseP_cons, h1, cond_false]
      simp [List.find?_cons, h1, ih hf hnd.2]

theorem savePost_mem {s : Store} {p2 q : Post}
    (hq : q ∈ (savePost s p2).posts) : q = p2 ∨ q ∈ s.posts := by
  unfold savePost at hq
  obtain ⟨r, hr, hrq⟩ := List.mem_map.mp hq
  by_cases h : r.id = p2.id
  · left; rw [← hrq]; simp [h]
  · right
    rw [← hrq]
    simpa [h] using hr

theorem spliceRemoveOne_sublist {α : Type} (l : List α) (i : Int) :
    (spliceRemoveOne l i).Sublist l := by
  unfold spliceRemoveOne
  split <;> exact List.eraseIdx_sublist _ _

/-- The `indexOf`-then-`splice` pair used by the comment-removal route
removes exactly the first comment authored by `uid`, whenever some
comment by `uid` is present. -/
theorem splice_at_user_idx (cs : List Comment) (uid : String)
    (h : ∃ c ∈ cs, c.user = uid) :
    spliceRemoveOne cs (jsIndexOf (cs.map (fun c => c.user)) uid) =
      removeFirstByUser cs uid := by
  induction cs with
  | nil => simp at h
  | cons c rest ih =>
    by_cases hc : c.user = uid
    · have hct : (c.user == uid) = true := by simp [hc]
      have hidx : jsIndexOf ((c :: rest).map (fun c => c.user)) uid = 0 := by
        simp only [List.map_cons, jsIndexOf, List.findIdx?_cons, hct, if_true,
          Nat.cast_zero]
      rw [hidx]
      simp [spliceRemoveOne, removeFirstByUser, hc]
    · have hrest : ∃ d ∈ rest, d.user = uid := by
        obtain ⟨d, hd, hdu⟩ := h
        rcases List.mem_cons.mp hd with rfl | hd2
        · exact absurd hdu hc
        · exact ⟨d, hd2, hdu⟩
      obtain ⟨j, hj⟩ : ∃ j,
          (rest.map (fun c => c.user)).findIdx? (fun y => y == uid) = some j := by
        obtain ⟨d, hd2, hdu⟩ := hrest
        exact ⟨_, List.findIdx?_eq_some_of_exists
          ⟨d.user, List.mem_map_of_mem _ hd2, by simp [hdu]⟩⟩
      have hne : (c.user == uid) = false := by simp [hc]
      have hstep : (List.map (fun c => c.user) (c :: rest)).findIdx?
          (fun y => y == uid) = some (j + 1) := by
        rw [List.map_cons, List.findIdx?_cons, if_neg (by simp [hc]),
          List.findIdx?_succ, hj]
        rfl
      have hidx : jsIndexOf ((c :: rest).map (fun c => c.user)) uid =
          (j : Int) + 1 := by
        simp only [jsIndexOf, hstep]
        push_cast
        ring
      have hidx2 : jsIndexOf (rest.map (fun c => c.user)) uid = (j : Int) := by
        simp only [jsIndexOf, hj]
      have hsplice : spliceRemoveOne (c :: rest) ((j : Int) + 1) =
          c :: spliceRemoveOne rest (j : Int) := by
        have h1 : ¬ ((j : Int) + 1 < 0) := by omega
        have h2 : ¬ ((j : Int) < 0) := by omega
        have h3 : ((j : Int) + 1).toNat = j + 1 := by omega
        have h4 : ((j : Int)).toNat = j := by omega
        simp only [spliceRemoveOne, if_neg h1, if_neg h2, h3, h4,
          List.eraseIdx_cons_succ]
      rw [hidx, hsplice, ← hidx2, ih hrest]
      simp [removeFirstByUser, hc]

theorem removeFirstByUser_length {cs : List Comment} {uid : String}
    (h : ∃ c ∈ cs, c.user = uid) :
    (removeFirstByUser cs uid).length + 1 = cs.length := by
  induction cs with
  | nil => simp at h
  | cons c rest ih =>
    by_cases hc : c.user = uid
    · simp [removeFirstByUser, hc]
    · have hrest : ∃ d ∈ rest, d.user = uid := by
        obtain ⟨d, hd, hdu⟩ := h
        rcases List.mem_cons.mp hd with rfl | hd2
        · exact absurd hdu hc
        · exact ⟨d, hd2, hdu⟩
      have := ih hrest
      simp only [removeFirstByUser, if_neg hc, List.length_cons]
      omega

/-! The claims. -/

/-- Claim C1: the spec demands that a login whose secret fails the
credential-hash check responds with `InvalidCredential` and never reaches
token issuance.  The source (`src/routes/api/auth.js:51-53`) sends the
`InvalidCredential` response without `return`ing, so it falls through to
`jwt.sign` and a token is produced and sent for the mismatched secret:
the code contradicts the claim (and the spec's own design note marks this
as a defect).  Evaluated at the failing input — a stored identity whose
hash does not verify against the submitted secret — the handler emits the
`InvalidCredential` response *and then* a token bound to that identity. -/
theorem c1_mismatch_falls_through_to_token :
    login eqVerify [{ id := "u1", email := "u1@x.com", password := "hash1" }]
      "u1@x.com" "wrongpass" = [.invalidCredential, .token "u1"] := by
  decide

/-- Claim C3 (amended): `like` on a well-formed post id that identifies
no stored post fails with `StoreUnavailable`, not `NotFound` — the
handler has no null check, so the `TypeError` from `null.likes` lands in
the generic 500 catch.  The store is returned unchanged. -/
theorem c3_like_absent_is_store_unavailable (s : Store) (pid uid : String)
    (habs : findById s pid = .absent) :
    like s pid uid = (.error .storeUnavailable, s) := by
  unfold like
  rw [habs]

/-- Witness for the C3 theorem: the empty store, id `"p1"`. -/
theorem c3_like_absent_is_store_unavailable_witness :
    like storeC3 "p1" "u1" = (.error .storeUnavailable, storeC3) :=
  c3_like_absent_is_store_unavailable storeC3 "p1" "u1" (by decide)

/-- Counterexample to claim C3 as stated: in the empty store (every id
well formed), liking the absent post `"p1"` yields `StoreUnavailable`
(the 500 outcome), not the `NotFound` the claim requires. -/
theorem c3_counterexample :
    findById storeC3 "p1" = .absent ∧
    (like storeC3 "p1" "u1").fst = .error .storeUnavailable ∧
    (like storeC3 "p1" "u1").fst ≠ .error .notFound := by
  refine ⟨rfl, rfl, ?_⟩
  intro h
  have := Except.error.inj h
  cases this

/-- Claim C5: if the acting identity already has a like in the post's
like sequence, a further `like` call fails with `DuplicateAction` and
returns the store unchanged — in particular the like sequence and its
length are untouched. -/
theorem c5_duplicate_like_rejected (s : Store) (pid uid : String) (p : Post)
    (hp : findById s pid = .found p)
    (hdup : ∃ lk ∈ p.likes, lk.user = uid) :
    like s pid uid = (.error .duplicateAction, s) := by
  unfold like
  rw [hp]
  dsimp only
  obtain ⟨lk, hm, hu⟩ := hdup
  have hmem : lk ∈ p.likes.filter (fun l => l.user == uid) :=
    List.mem_filter.mpr ⟨hm, by simp [hu]⟩
  rw [if_pos (List.length_pos_of_mem hmem)]

/-- Witness for the C5 theorem: `"u2"` has already liked `postC5`. -/
theorem c5_duplicate_like_rejected_witness :
    like storeC5 "p1" "u2" = (.error .duplicateAction, storeC5) :=
  c5_duplicate_like_rejected storeC5 "p1" "u2" postC5 (by decide)
    ⟨{ user := "u2" }, by decide, rfl⟩

/-- Claim C10: `addComment` on a well-formed post id that identifies no
stored post (with non-empty text) fails with `StoreUnavailable` — the
handler dereferences the `null` returned by `findById`, and the
`TypeError` lands in the generic 500 catch, never the 404 — and the
store is returned unchanged, so no post is modified. -/
theorem c10_add_comment_absent_post (s : Store) (pid text fid : String)
    (u : User) (habs : findById s pid = .absent) (htext : text ≠ "") :
    addComment s pid u text fid = (.error .storeUnavailable, s) ∧
    (addComment s pid u text fid).fst ≠ .error .notFound := by
  have h : addComment s pid u text fid = (.error .storeUnavailable, s) := by
    unfold addComment
    rw [if_neg htext, habs]
  refine ⟨h, ?_⟩
  rw [h]
  intro hbad
  have := Except.error.inj hbad
  cases this

/-- Witness for the C10 theorem: commenting on the absent post `"p1"`
of the empty store. -/
theorem c10_add_comment_absent_post_witness :
    addComment storeC3 "p1" userC10 "hi" "c9" =
        (.error .storeUnavailable, storeC3) ∧
    (addComment storeC3 "p1" userC10 "hi" "c9").fst ≠ .error .notFound :=
  c10_add_comment_absent_post storeC3 "p1" "hi" "c9" userC10 (by decide)
    (by decide)

/-- Claim C2 (amended): once the post is loaded and the target comment
found, `removeComment` fails with `Forbidden` exactly when the caller's
id differs from the *comment's* author id — the source checks
`comment.user.toString() !== req.user.id`, not the post's author.  So
the comment's own author may remove the comment, while the post's author
(when not the comment's author) is the one rejected. -/
theorem c2_forbidden_iff_not_comment_author (s : Store) (pid cid uid : String)
    (p : Post) (c : Comment)
    (hp : findById s pid = .found p)
    (hc : p.comments.find? (fun x => x.id == cid) = some c) :
    ((removeComment s pid cid uid).fst = .error .forbidden ↔ c.user ≠ uid) := by
  unfold removeComment
  rw [hp]
  dsimp only
  rw [hc]
  dsimp only
  by_cases hcu : c.user = uid
  · rw [if_neg (not_not_intro hcu)]
    simp [hcu]
  · rw [if_pos hcu]
    simp [hcu]

/-- Witness for the C2 theorem: in `storeC2` the comment `"c1"` was
written by `"u2"`, so the post author `"u1"` hits `Forbidden`. -/
theorem c2_forbidden_iff_not_comment_author_witness :
    ((removeComment storeC2 "p1" "c1" "u1").fst = .error .forbidden ↔
      commentC2.user ≠ "u1") :=
  c2_forbidden_iff_not_comment_author storeC2 "p1" "c1" "u1" postC2 commentC2
    (by decide) (by decide)

/-- Counterexample to claim C2 as stated: `postC2` is authored by
`"u1"` and its comment `"c1"` was written by `"u2"`.  The claim says the
post author `"u1"` may remove that comment and that `"u2"` is rejected
with `Forbidden`; the code does the exact opposite — `"u1"` is rejected
with `Forbidden` and `"u2"` succeeds (the comment list becomes `[]`). -/
theorem c2_counterexample :
    postC2.user = "u1" ∧ commentC2.user = "u2" ∧
    (removeComment storeC2 "p1" "c1" "u1").fst = .error .forbidden ∧
    (removeComment storeC2 "p1" "c1" "u2").fst = .ok [] :=
  ⟨rfl, rfl, rfl, rfl⟩

/-- Claim C4: whenever `removeComment` succeeds with comment list `l`,
exactly one comment was removed and `l` is the original list minus its
first comment authored by the acting identity — the removal index is
`comments.map(c => c.user).indexOf(req.user.id)`, keyed on the caller's
id, not on the target `commentId`. -/
theorem c4_remove_comment_removes_first_by_actor (s : Store)
    (pid cid uid : String) (p : Post) (l : List Comment)
    (hp : findById s pid = .found p)
    (hok : (removeComment s pid cid uid).fst = .ok l) :
    l = removeFirstByUser p.comments uid ∧
    l.length + 1 = p.comments.length := by
  unfold removeComment at hok
  rw [hp] at hok
  dsimp only at hok
  cases hc : p.comments.find? (fun x => x.id == cid) with
  | none =>
    rw [hc] at hok
    simp at hok
  | some c =>
    rw [hc] at hok
    dsimp only at hok
    by_cases hcu : c.user = uid
    · rw [if_neg (not_not_intro hcu)] at hok
      dsimp only at hok
      have hex : ∃ d ∈ p.comments, d.user = uid :=
        ⟨c, List.mem_of_find?_eq_some hc, hcu⟩
      have hl := Except.ok.inj hok
      constructor
      · rw [← hl]
        exact splice_at_user_idx p.comments uid hex
      · rw [← hl, splice_at_user_idx p.comments uid hex]
        exact removeFirstByUser_length hex
    · rw [if_pos hcu] at hok
      simp at hok

/-- Witness for the C4 theorem: `postC4` holds two comments by `"u1"`;
targeting the *second* one (`"c2"`) still removes the *first* one, so
the surviving list is `[commentC4b]`. -/
theorem c4_remove_comment_removes_first_by_actor_witness :
    [commentC4b] = removeFirstByUser postC4.comments "u1" ∧
    [commentC4b].length + 1 = postC4.comments.length :=
  c4_remove_comment_removes_first_by_actor storeC4 "p1" "c2" "u1" postC4
    [commentC4b] (by decide) rfl

/-- Claim C7: deleting a post as a non-author fails with `Forbidden` and
leaves the store untouched, so the post is still retrievable; deleting
as the author returns the confirmation and the post is gone from the
store (given the store's ids are distinct). -/
theorem c7_delete_ownership (s : Store) (pid uidB : String) (p : Post)
    (hp : findById s pid = .found p)
    (hnd : (s.posts.map (fun q => q.id)).Nodup)
    (hne : uidB ≠ p.user) :
    deleteById s pid uidB = (.error .forbidden, s) ∧
    getById s pid = .ok p ∧
    (deleteById s pid p.user).fst = .ok "Post removed." ∧
    getById (deleteById s pid p.user).snd pid = .error .notFound := by
  obtain ⟨hv, hf⟩ := findById_found_iff.mp hp
  have hid : p.id = pid := findById_found_id hp
  have hdel : deleteById s pid p.user = (.ok "Post removed.", removePost s p) := by
    unfold deleteById
    rw [hp]
    dsimp only
    rw [if_neg (not_not_intro rfl)]
  refine ⟨?_, ?_, ?_, ?_⟩
  · unfold deleteById
    rw [hp]
    dsimp only
    rw [if_pos (Ne.symm hne)]
  · unfold getById
    rw [hp]
  · rw [hdel]
  · rw [hdel]
    unfold getById
    have habs : findById (removePost s p) pid = .absent := by
      apply findById_absent_iff.mpr
      refine ⟨hv, ?_⟩
      show ((removePost s p).posts).find? (fun q => q.id == pid) = none
      unfold removePost
      dsimp only
      rw [hid]
      exact find?_eraseP_none hf hnd
    rw [habs]

/-- Witness for the C7 theorem: `postC5` is authored by `"u1"`; the
stranger `"u2"` is rejected, the author's delete goes through. -/
theorem c7_delete_ownership_witness :
    deleteById storeC5 "p1" "u2" = (.error .forbidden, storeC5) ∧
    getById storeC5 "p1" = .ok postC5 ∧
    (deleteById storeC5 "p1" postC5.user).fst = .ok "Post removed." ∧
    getById (deleteById storeC5 "p1" postC5.user).snd "p1" = .error .notFound :=
  c7_delete_ownership storeC5 "p1" "u2" postC5 (by decide) (by decide)
    (by decide)

/-- Claim C9: when the post id is malformed (`validId` rejects it, so
`findById` raises the cast error), `getById` and `deleteById` translate
the failure to `NotFound` — exactly the outcome an absent well-formed id
gets — while `like`, `unlike`, `addComment` and `removeComment` have no
`err.kind === 'ObjectId'` branch and report `StoreUnavailable`. -/
theorem c9_cast_error_translation (s : Store)
    (pid pid2 uid cid text fid : String) (u : User)
    (hmal : s.validId pid = false)
    (habs : findById s pid2 = .absent)
    (htext : text ≠ "") :
    getById s pid = .error .notFound ∧
    (deleteById s pid uid).fst = .error .notFound ∧
    (like s pid uid).fst = .error .storeUnavailable ∧
    (unlike s pid uid).fst = .error .storeUnavailable ∧
    (addComment s pid u text fid).fst = .error .storeUnavailable ∧
    (removeComment s pid cid uid).fst = .error .storeUnavailable ∧
    getById s pid2 = .error .notFound ∧
    (deleteById s pid2 uid).fst = .error .notFound := by
  have hce : findById s pid = .castError := findById_castError hmal
  refine ⟨?_, ?_, ?_, ?_, ?_, ?_, ?_, ?_⟩
  · unfold getById; rw [hce]
  · unfold deleteById; rw [hce]
  · unfold like; rw [hce]
  · unfold unlike; rw [hce]
  · unfold addComment; rw [if_neg htext, hce]
  · unfold removeComment; rw [hce]
  · unfold getById; rw [habs]
  · unfold deleteById; rw [habs]

/-- Witness for the C9 theorem: in `storeC9` the id `"bad"` is
malformed while `"good"` is well formed but absent. -/
theorem c9_cast_error_translation_witness :
    getById storeC9 "bad" = .error .notFound ∧
    (deleteById storeC9 "bad" "u1").fst = .error .notFound ∧
    (like storeC9 "bad" "u1").fst = .error .storeUnavailable ∧
    (unlike storeC9 "bad" "u1").fst = .error .storeUnavailable ∧
    (addComment storeC9 "bad" userC10 "hi" "c9").fst = .error .storeUnavailable ∧
    (removeComment storeC9 "bad" "c1" "u1").fst = .error .storeUnavailable ∧
    getById storeC9 "good" = .error .notFound ∧
    (deleteById storeC9 "good" "u1").fst = .error .notFound :=
  c9_cast_error_translation storeC9 "bad" "good" "u1" "c1" "hi" "c9" userC10
    (by decide) (by decide) (by decide)

/-- Claim C6: when the acting identity holds no like on the stored post,
a successful `like` immediately followed by `unlike` returns exactly the
pre-like like sequence, and the stored post is restored exactly. -/
theorem c6_like_then_unlike_restores (s : Store) (pid uid : String) (p : Post)
    (hp : findById s pid = .found p)
    (hno : ∀ lk ∈ p.likes, lk.user ≠ uid) :
    (like s pid uid).fst = .ok ({ user := uid } :: p.likes) ∧
    (unlike (like s pid uid).snd pid uid).fst = .ok p.likes ∧
    findById (unlike (like s pid uid).snd pid uid).snd pid = .found p := by
  have hid : p.id = pid := findById_found_id hp
  have hfil : p.likes.filter (fun l => l.user == uid) = [] :=
    List.filter_eq_nil_iff.mpr (fun a ha => by simp [hno a ha])
  have hlike : like s pid uid =
      (.ok ({ user := uid } :: p.likes),
        savePost s { p with likes := { user := uid } :: p.likes }) := by
    unfold like
    rw [hp]
    dsimp only
    rw [if_neg (by simp [hfil])]
  have hfind2 : findById (like s pid uid).snd pid =
      .found { p with likes := { user := uid } :: p.likes } := by
    rw [hlike]
    exact findById_savePost hp hid
  have hunlike : unlike (like s pid uid).snd pid uid =
      (.ok p.likes, savePost (like s pid uid).snd p) := by
    unfold unlike
    rw [hfind2]
    dsimp only
    rw [if_neg (by simp [List.filter_cons, hfil])]
    have hidx : jsIndexOf (({ user := uid } :: p.likes : List Like).map
        (fun l => l.user)) uid = 0 := by
      simp only [List.map_cons, jsIndexOf, List.findIdx?_cons]
      simp
    rw [hidx]
    have hsp : spliceRemoveOne ({ user := uid } :: p.likes : List Like) 0 =
        p.likes := by
      simp [spliceRemoveOne]
    rw [hsp]
  refine ⟨by rw [hlike], by rw [hunlike], ?_⟩
  rw [hunlike]
  exact findById_savePost hfind2 hid

/-- Witness for the C6 theorem: `"u3"` has no like on `postC5`. -/
theorem c6_like_then_unlike_restores_witness :
    (like storeC5 "p1" "u3").fst = .ok ({ user := "u3" } :: postC5.likes) ∧
    (unlike (like storeC5 "p1" "u3").snd "p1" "u3").fst = .ok postC5.likes ∧
    findById (unlike (like storeC5 "p1" "u3").snd "p1" "u3").snd "p1" =
      .found postC5 :=
  c6_like_then_unlike_restores storeC5 "p1" "u3" postC5 (by decide) (by decide)

theorem like_preserves_likesUnique (s : Store) (pid uid : String)
    (hinv : ∀ q ∈ s.posts, likesUnique q) :
    ∀ q ∈ (like s pid uid).snd.posts, likesUnique q := by
  intro q hq
  unfold like at hq
  cases hfb : findById s pid with
  | absent => rw [hfb] at hq; exact hinv q hq
  | castError => rw [hfb] at hq; exact hinv q hq
  | found p =>
    rw [hfb] at hq
    dsimp only at hq
    by_cases hdup : 0 < (p.likes.filter (fun l => l.user == uid)).length
    · rw [if_pos hdup] at hq
      exact hinv q hq
    · rw [if_neg hdup] at hq
      dsimp only at hq
      rcases savePost_mem hq with rfl | hmem
      · unfold likesUnique
        dsimp only
        simp only [List.map_cons, List.nodup_cons]
        constructor
        · intro hmem2
          obtain ⟨lk, hlk, hlku⟩ := List.mem_map.mp hmem2
          exact hdup (List.length_pos_of_mem
            (List.mem_filter.mpr ⟨hlk, by simp [hlku]⟩))
        · exact hinv p (findById_found_mem hfb)
      · exact hinv q hmem

theorem unlike_preserves_likesUnique (s : Store) (pid uid : String)
    (hinv : ∀ q ∈ s.posts, likesUnique q) :
    ∀ q ∈ (unlike s pid uid).snd.posts, likesUnique q := by
  intro q hq
  unfold unlike at hq
  cases hfb : findById s pid with
  | absent => rw [hfb] at hq; exact hinv q hq
  | castError => rw [hfb] at hq; exact hinv q hq
  | found p =>
    rw [hfb] at hq
    dsimp only at hq
    by_cases hz : (p.likes.filter (fun l => l.user == uid)).length = 0
    · rw [if_pos hz] at hq
      exact hinv q hq
    · rw [if_neg hz] at hq
      dsimp only at hq
      rcases savePost_mem hq with rfl | hmem
      · unfold likesUnique
        dsimp only
        exact List.Nodup.sublist
          (List.Sublist.map _ (spliceRemoveOne_sublist _ _))
          (hinv p (findById_found_mem hfb))
      · exact hinv q hmem

/-- Claim C8: starting from a store whose posts each carry every user id
at most once in their like sequence, any sequence of `like`/`unlike`
requests preserves that invariant for every post. -/
theorem c8_likes_unique_invariant (s : Store) (ops : List EngagementOp)
    (hinv : ∀ q ∈ s.posts, likesUnique q) :
    ∀ q ∈ (runOps s ops).posts, likesUnique q := by
  induction ops generalizing s with
  | nil => exact hinv
  | cons op rest ih =>
    show ∀ q ∈ (runOps (applyOp s op) rest).posts, likesUnique q
    apply ih
    cases op with
    | like pid uid => exact like_preserves_likesUnique s pid uid hinv
    | unlike pid uid => exact unlike_preserves_likesUnique s pid uid hinv

/-- Witness for the C8 theorem: running `opsC8` over `storeC5` leaves
the store holding exactly `postC8final`, whose likes are duplicate
free. -/
theorem c8_likes_unique_invariant_witness : likesUnique postC8final :=
  c8_likes_unique_invariant storeC5 opsC8 (by decide) postC8final (by decide)

end Mern
